import Mathlib

/-!
Verification of the inviter bot's onboarding / drip-delivery engine.

Shallow embedding of the relevant parts of `bot.py`, `database.py` and
`admin.py`.  Timestamps are modelled as integer seconds (Python
`datetime` arithmetic at second resolution; the concrete examples place
second 0 at 2024-01-01T00:00:00).  Database tables are modelled as Lean
lists of row structures, and each SQL statement of `database.py` becomes
a pure function on those lists.  Fallible Messenger sends are modelled
by boolean oracles (`true` = the awaited send returned, `false` = it
raised and the surrounding `except` block caught the exception).
-/

namespace InviterBot

/-! ## Time model -/

/-- Python `(current_time - join_date).days` (bot.py line 452):
`timedelta.days` floors the difference toward negative infinity,
so it is `Int.fdiv` of the difference in seconds by 86400. -/
def daysSinceJoin (now joinDate : Int) : Int :=
  (now - joinDate).fdiv 86400

/-- Python `join_date.date()` rendered as the timestamp of that
calendar day's midnight. -/
def dateMidnight (t : Int) : Int :=
  86400 * (t.fdiv 86400)

/-! ## Python `int()` parsing for `send_time` fields

`bot.py` line 482 runs `hour, minute = map(int, send_time.split(':'))`
and then `dt_time(hour, minute)` (line 485).  ValueError from the
unpacking, from `int()` or from the `dt_time` range check is caught at
line 490.  `parseSendTime` returns `some (hour, minute)` exactly when
that code reaches line 489 without raising. -/

/-- Digits of a Python integer literal after the first digit: single
underscores are allowed between digits, nothing else. -/
def pyDigitsAux (acc : Nat) : List Char → Option Nat
  | [] => some acc
  | '_' :: c :: cs =>
      if c.isDigit then pyDigitsAux (acc * 10 + (c.toNat - 48)) cs else none
  | c :: cs =>
      if c.isDigit then pyDigitsAux (acc * 10 + (c.toNat - 48)) cs else none

/-- A non-empty run of decimal digits with optional single underscores
between them, as accepted by Python `int`. -/
def pyDigits : List Char → Option Nat
  | [] => none
  | c :: cs =>
      if c.isDigit then pyDigitsAux (c.toNat - 48) cs else none

/-- Whitespace stripped by Python `int` around the number. -/
def isPySpace (c : Char) : Bool :=
  c = ' ' || c = '\t' || c = '\n' || c = '\r'

/-- Python `int(s)` for a decimal string given as a character list:
optional surrounding whitespace, optional sign, digits.  Returns
`none` when `int` would raise ValueError. -/
def pyInt (s : List Char) : Option Int :=
  let cs := ((s.dropWhile isPySpace).reverse.dropWhile isPySpace).reverse
  match cs with
  | '+' :: rest => (pyDigits rest).map (fun n => (n : Int))
  | '-' :: rest => (pyDigits rest).map (fun n => -(n : Int))
  | rest => (pyDigits rest).map (fun n => (n : Int))

/-- Python `s.split(':')`: always at least one field; a trailing or
leading colon yields an empty field. -/
def splitOnColon : List Char → List (List Char)
  | [] => [[]]
  | c :: cs =>
      let r := splitOnColon cs
      if c = ':' then [] :: r
      else
        match r with
        | [] => [[c]]
        | p :: ps => (c :: p) :: ps

/-- The parse performed by bot.py lines 482-485: split on a colon into
exactly two fields, convert both with `int`, and require the
`datetime.time` constructor's ranges (hour 0..23, minute 0..59).
`none` means the code raised ValueError, which line 490 catches. -/
def parseSendTime (s : String) : Option (Int × Int) :=
  match splitOnColon s.toList with
  | [hs, ms] =>
      match pyInt hs, pyInt ms with
      | some h, some m =>
          if 0 ≤ h ∧ h ≤ 23 ∧ 0 ≤ m ∧ m ≤ 59 then some (h, m) else none
      | _, _ => none
  | _ => none

/-! ## Drip-delivery sweep (`send_static_messages`, bot.py 439-600) -/

/-- Row of the `static_messages` table, restricted to the fields the
sweep's send-window logic reads. -/
structure StaticMessage where
  id : Nat
  dayNumber : Int
  sendTime : Option String
  additionalMinutes : Option Int
  isActive : Bool
deriving DecidableEq, Repr

/-- bot.py line 466: `msg.get('additional_minutes', 0) or 0` — a NULL
column value (and 0 itself) becomes 0. -/
def effAdditionalMinutes (msg : StaticMessage) : Int :=
  match msg.additionalMinutes with
  | none => 0
  | some v => v

/-- bot.py lines 477-478: `if not send_time: send_time = "09:00"` — a
NULL or empty string falls back to the default send time. -/
def effSendTime (st : Option String) : String :=
  match st with
  | none => "09:00"
  | some s => if s = "" then "09:00" else s

/-- Row of the `users` table, restricted to the fields the sweep reads. -/
structure UserRow where
  userId : Nat
  isBanned : Bool
  joinDate : Int
deriving DecidableEq, Repr

/-- Outcome of the time-window logic of bot.py lines 469-492 for one
(user, message) pair.  `malformed` is the ValueError branch: line 491
logs a warning and line 492 `continue`s, so the sweep never raises. -/
inductive WindowResult where
  | send
  | notYet
  | malformed
deriving DecidableEq, Repr

/-- bot.py lines 469-492: decide whether it is time to send `msg` to a
user who joined at `joinDate`, at tick time `now`.  Day 0 compares
`now` against join time plus `additional_minutes` with no upper bound;
day ≥ 1 parses `send_time`, builds the trigger from the join date's
midnight plus `days_since_join` days plus hour:minute plus
`additional_minutes`, and requires `trigger ≤ now < trigger + 5 min`. -/
def windowDecision (joinDate : Int) (msg : StaticMessage) (now : Int) : WindowResult :=
  let addMin := effAdditionalMinutes msg
  if daysSinceJoin now joinDate = 0 then
    if joinDate + 60 * addMin ≤ now then .send else .notYet
  else
    match parseSendTime (effSendTime msg.sendTime) with
    | none => .malformed
    | some (h, m) =>
        let tts := dateMidnight joinDate + 86400 * daysSinceJoin now joinDate
          + 3600 * h + 60 * m + 60 * addMin
        if tts ≤ now ∧ now < tts + 300 then .send else .notYet

/-- The `static_messages_sent` table: the set of (user id, static
message id) pairs already delivered. -/
abbrev Ledger := List (Nat × Nat)

/-- database.py lines 535-542 (`mark_static_message_sent`):
`INSERT OR IGNORE` under the UNIQUE(user_id, static_message_id)
constraint — a duplicate mark is a no-op. -/
def markStaticMessageSent (l : Ledger) (uid mid : Nat) : Ledger :=
  if (uid, mid) ∈ l then l else l ++ [(uid, mid)]

/-- database.py lines 544-552 (`is_static_message_sent`):
`SELECT COUNT(*) ... > 0`. -/
def isStaticMessageSent (l : Ledger) (uid mid : Nat) : Bool :=
  l.contains (uid, mid)

/-- One iteration of the inner `for msg in static_messages` loop of
`send_static_messages` (bot.py lines 455-598) for a single user:
skip inactive items and items whose `day_number` differs from
`days_since_join` (line 456), skip already-sent pairs (lines 460-462),
evaluate the send window, and on `send` attempt the Messenger dispatch.
`sendOk uid mid = false` means the send raised; the exception is caught
at line 597 *before* `mark_static_message_sent` (line 594) runs, so a
failed send leaves the ledger unchanged.  Returns the ledger afterwards
and whether a send was attempted. -/
def processMsg (now : Int) (sendOk : Nat → Nat → Bool) (u : UserRow)
    (msg : StaticMessage) (l : Ledger) : Ledger × Bool :=
  if !msg.isActive || msg.dayNumber != daysSinceJoin now u.joinDate then
    (l, false)
  else if isStaticMessageSent l u.userId msg.id then
    (l, false)
  else
    match windowDecision u.joinDate msg now with
    | .send =>
        if sendOk u.userId msg.id then
          (markStaticMessageSent l u.userId msg.id, true)
        else
          (l, true)
    | _ => (l, false)

/-- The inner message loop over the whole `static_messages` list,
threading the ledger and collecting the ids of messages for which a
send was attempted. -/
def sweepMsgs (now : Int) (sendOk : Nat → Nat → Bool) (u : UserRow) :
    Ledger → List StaticMessage → Ledger × List Nat
  | l, [] => (l, [])
  | l, m :: rest =>
      let r := processMsg now sendOk u m l
      let r2 := sweepMsgs now sendOk u r.1 rest
      (r2.1, (if r.2 then [m.id] else []) ++ r2.2)

/-- The outer `for user in users` loop of `send_static_messages`:
banned users are skipped (bot.py line 447).  Collects (user id,
message id) pairs for which a send was attempted. -/
def sweepUsers (now : Int) (sendOk : Nat → Nat → Bool)
    (msgs : List StaticMessage) :
    Ledger → List UserRow → Ledger × List (Nat × Nat)
  | l, [] => (l, [])
  | l, u :: rest =>
      if u.isBanned then sweepUsers now sendOk msgs l rest
      else
        let r := sweepMsgs now sendOk u l msgs
        let r2 := sweepUsers now sendOk msgs r.1 rest
        (r2.1, r.2.map (fun mid => (u.userId, mid)) ++ r2.2)

/-- A sequence of scheduler ticks of the drip sweep: each tick has a
current time and a send-success oracle.  Returns the final ledger and
every (user, message) send attempt across all ticks. -/
def runTicks (users : List UserRow) (msgs : List StaticMessage) :
    Ledger → List (Int × (Nat → Nat → Bool)) → Ledger × List (Nat × Nat)
  | l, [] => (l, [])
  | l, (now, ok) :: rest =>
      let r := sweepUsers now ok msgs l users
      let r2 := runTicks users msgs r.1 rest
      (r2.1, r.2 ++ r2.2)

/-! ## Helper lemmas about the drip sweep -/

theorem mem_markStaticMessageSent {l : Ledger} {uid mid : Nat} {p : Nat × Nat}
    (hp : p ∈ l) : p ∈ markStaticMessageSent l uid mid := by
  unfold markStaticMessageSent
  split
  · exact hp
  · exact List.mem_append_left _ hp

theorem processMsg_mem {now : Int} {ok : Nat → Nat → Bool} {u : UserRow}
    {msg : StaticMessage} {l : Ledger} {p : Nat × Nat} (hp : p ∈ l) :
    p ∈ (processMsg now ok u msg l).1 := by
  unfold processMsg
  split
  · exact hp
  · split
    · exact hp
    · split
      · split
        · exact mem_markStaticMessageSent hp
        · exact hp
      · exact hp

theorem processMsg_sent {now : Int} {ok : Nat → Nat → Bool} {u : UserRow}
    {msg : StaticMessage} {l : Ledger} (h : (u.userId, msg.id) ∈ l) :
    processMsg now ok u msg l = (l, false) := by
  have hs : isStaticMessageSent l u.userId msg.id = true := by
    simpa [isStaticMessageSent] using h
  unfold processMsg
  simp [hs]

/-- A send attempt for a pair implies the pair passed every filter of
the sweep: active item, matching day, not already delivered, and the
send window fired. -/
theorem processMsg_attempt {now : Int} {ok : Nat → Nat → Bool} {u : UserRow}
    {msg : StaticMessage} {l : Ledger}
    (h : (processMsg now ok u msg l).2 = true) :
    msg.isActive = true ∧ msg.dayNumber = daysSinceJoin now u.joinDate ∧
    isStaticMessageSent l u.userId msg.id = false ∧
    windowDecision u.joinDate msg now = .send := by
  unfold processMsg at h
  split at h
  · simp at h
  · rename_i hfilter
    simp only [Bool.not_eq_true', Bool.or_eq_false_iff, Bool.not_eq_true,
      bne_eq_false_iff_eq] at hfilter
    obtain ⟨ha, hd⟩ := hfilter
    split at h
    · simp at h
    · rename_i hsent
      split at h
      · rename_i hwin
        exact ⟨by simpa using ha, hd, by simpa using hsent, hwin⟩
      · simp at h

theorem sweepMsgs_mem {now : Int} {ok : Nat → Nat → Bool} {u : UserRow}
    {p : Nat × Nat} :
    ∀ {l : Ledger} {msgs : List StaticMessage}, p ∈ l →
      p ∈ (sweepMsgs now ok u l msgs).1 := by
  intro l msgs
  induction msgs generalizing l with
  | nil => intro hp; simpa [sweepMsgs] using hp
  | cons m rest ih => intro hp; simpa [sweepMsgs] using ih (processMsg_mem hp)

theorem sweepMsgs_not_attempted {now : Int} {ok : Nat → Nat → Bool}
    {u : UserRow} {mid : Nat} :
    ∀ {l : Ledger} {msgs : List StaticMessage}, (u.userId, mid) ∈ l →
      mid ∉ (sweepMsgs now ok u l msgs).2 := by
  intro l msgs
  induction msgs generalizing l with
  | nil => intro _ hc; simp [sweepMsgs] at hc
  | cons m rest ih =>
      intro hp hc
      simp only [sweepMsgs, List.mem_append] at hc
      rcases hc with hc | hc
      · by_cases hm : m.id = mid
        · rw [show (u.userId, mid) = (u.userId, m.id) by rw [hm]] at hp
          rw [processMsg_sent hp] at hc
          simp at hc
        · split at hc <;> simp at hc
          exact hm hc.symm
      · exact ih (processMsg_mem hp) hc

theorem sweepUsers_cons_banned {now : Int} {ok : Nat → Nat → Bool}
    {msgs : List StaticMessage} {l : Ledger} {u : UserRow} {rest : List UserRow}
    (hb : u.isBanned = true) :
    sweepUsers now ok msgs l (u :: rest) = sweepUsers now ok msgs l rest := by
  simp [sweepUsers, hb]

theorem sweepUsers_cons_active {now : Int} {ok : Nat → Nat → Bool}
    {msgs : List StaticMessage} {l : Ledger} {u : UserRow} {rest : List UserRow}
    (hb : u.isBanned = false) :
    sweepUsers now ok msgs l (u :: rest) =
      ((sweepUsers now ok msgs (sweepMsgs now ok u l msgs).1 rest).1,
       (sweepMsgs now ok u l msgs).2.map (fun mid => (u.userId, mid))
         ++ (sweepUsers now ok msgs (sweepMsgs now ok u l msgs).1 rest).2) := by
  simp [sweepUsers, hb]

theorem sweepUsers_mem {now : Int} {ok : Nat → Nat → Bool}
    {msgs : List StaticMessage} {p : Nat × Nat} :
    ∀ {l : Ledger} {users : List UserRow}, p ∈ l →
      p ∈ (sweepUsers now ok msgs l users).1 := by
  intro l users
  induction users generalizing l with
  | nil => intro hp; simpa [sweepUsers] using hp
  | cons u rest ih =>
      intro hp
      cases hb : u.isBanned
      · rw [sweepUsers_cons_active hb]
        exact ih (sweepMsgs_mem hp)
      · rw [sweepUsers_cons_banned hb]
        exact ih hp

theorem sweepUsers_not_attempted {now : Int} {ok : Nat → Nat → Bool}
    {msgs : List StaticMessage} {uid mid : Nat} :
    ∀ {l : Ledger} {users : List UserRow}, (uid, mid) ∈ l →
      (uid, mid) ∉ (sweepUsers now ok msgs l users).2 := by
  intro l users
  induction users generalizing l with
  | nil => intro _ hc; simp [sweepUsers] at hc
  | cons u rest ih =>
      intro hp hc
      cases hb : u.isBanned
      · rw [sweepUsers_cons_active hb] at hc
        rcases List.mem_append.mp hc with hc | hc
        · obtain ⟨mid2, hmem, heq⟩ := List.mem_map.mp hc
          have huid : u.userId = uid := congrArg Prod.fst heq
          have hm : mid2 = mid := congrArg Prod.snd heq
          rw [hm] at hmem
          rw [← huid] at hp
          exact sweepMsgs_not_attempted hp hmem
        · exact ih (sweepMsgs_mem hp) hc
      · rw [sweepUsers_cons_banned hb] at hc
        exact ih hp hc

/-- When `daysSinceJoin` is non-zero, a `send` outcome of the window
logic means `send_time` parsed and `now` lies in the bounded five-minute
window after the computed trigger. -/
theorem windowDecision_dayN_send {joinDate now : Int} {msg : StaticMessage}
    (hnz : ¬ daysSinceJoin now joinDate = 0)
    (hwin : windowDecision joinDate msg now = .send) :
    ∃ h m : Int, parseSendTime (effSendTime msg.sendTime) = some (h, m) ∧
      dateMidnight joinDate + 86400 * daysSinceJoin now joinDate + 3600 * h + 60 * m
          + 60 * effAdditionalMinutes msg ≤ now ∧
      now < dateMidnight joinDate + 86400 * daysSinceJoin now joinDate + 3600 * h + 60 * m
          + 60 * effAdditionalMinutes msg + 300 := by
  unfold windowDecision at hwin
  rw [if_neg hnz] at hwin
  split at hwin
  · simp at hwin
  · rename_i h m heq
    refine ⟨h, m, heq, ?_⟩
    by_cases hcond : dateMidnight joinDate + 86400 * daysSinceJoin now joinDate
        + 3600 * h + 60 * m + 60 * effAdditionalMinutes msg ≤ now ∧
        now < dateMidnight joinDate + 86400 * daysSinceJoin now joinDate
          + 3600 * h + 60 * m + 60 * effAdditionalMinutes msg + 300
    · exact hcond
    · simp [hcond] at hwin

/-! ## Claim theorems for the drip sweep -/

/-- Claim C3: for every (user, content item) pair for which a
DeliveryRecord already exists, every subsequent drip-delivery tick
skips that pair and performs no second send attempt for it — over any
sequence of further ticks, with arbitrary tick times and arbitrary
send-success outcomes. -/
theorem deliveredPairNeverReattempted
    {users : List UserRow} {msgs : List StaticMessage} {uid mid : Nat} :
    ∀ {l : Ledger} {ticks : List (Int × (Nat → Nat → Bool))},
      (uid, mid) ∈ l → (uid, mid) ∉ (runTicks users msgs l ticks).2 := by
  intro l ticks
  induction ticks generalizing l with
  | nil => intro _ hc; simp [runTicks] at hc
  | cons t rest ih =>
      intro hp hc
      simp only [runTicks, List.mem_append] at hc
      rcases hc with hc | hc
      · exact sweepUsers_not_attempted hp hc
      · exact ih (sweepUsers_mem hp) hc

theorem deliveredPairNeverReattempted_witness :
    ((1, 7) : Nat × Nat) ∉
      (runTicks [⟨1, false, 0⟩] [⟨7, 0, none, none, true⟩] [(1, 7)]
        [(0, fun _ _ => true), (60, fun _ _ => true)]).2 :=
  deliveredPairNeverReattempted (by decide)

/-- Claim C1, counterexample: the first tick (day-0 item, window open)
triggers a dispatch attempt whose send fails; contrary to the claim, no
DeliveryRecord is written (the final ledger is empty) and the next tick
attempts the very same pair a second time. -/
theorem dripFailedSendCounterexample :
    (runTicks [⟨1, false, 0⟩] [⟨7, 0, none, none, true⟩] []
      [(0, fun _ _ => false), (60, fun _ _ => false)]).2 = [(1, 7), (1, 7)] ∧
    (runTicks [⟨1, false, 0⟩] [⟨7, 0, none, none, true⟩] []
      [(0, fun _ _ => false), (60, fun _ _ => false)]).1 = [] :=
  ⟨by decide, by decide⟩

/-- Claim C1, amended: the DeliveryRecord is written exactly when the
Messenger send succeeds (bot.py runs `mark_static_message_sent` at line
594 inside the `try`, after the send; the `except` at line 597 skips
it).  When the send fails the ledger is unchanged, the pair is still
unrecorded, and any later tick whose day and window predicates hold
attempts the pair again. -/
theorem dripLedgerWriteOnlyOnSuccess (now : Int) (ok okN : Nat → Nat → Bool)
    (u : UserRow) (msg : StaticMessage) (l : Ledger)
    (hatt : (processMsg now ok u msg l).2 = true) :
    (ok u.userId msg.id = true →
      (processMsg now ok u msg l).1 = markStaticMessageSent l u.userId msg.id) ∧
    (ok u.userId msg.id = false →
      (processMsg now ok u msg l).1 = l ∧
      isStaticMessageSent l u.userId msg.id = false ∧
      (∀ nowN : Int, msg.dayNumber = daysSinceJoin nowN u.joinDate →
        windowDecision u.joinDate msg nowN = .send →
        (processMsg nowN okN u msg l).2 = true)) := by
  obtain ⟨ha, hd, hsent, hwin⟩ := processMsg_attempt hatt
  constructor
  · intro hok
    simp [processMsg, ha, ← hd, hsent, hwin, hok]
  · intro hok
    refine ⟨?_, hsent, ?_⟩
    · simp [processMsg, ha, ← hd, hsent, hwin, hok]
    · intro nowN hdN hwinN
      cases hoknn : okN u.userId msg.id <;>
        simp [processMsg, ha, ← hdN, hsent, hwinN, hoknn]

theorem dripLedgerWriteOnlyOnSuccess_witness :
    (processMsg 0 (fun _ _ => false) ⟨1, false, 0⟩ ⟨7, 0, none, none, true⟩ []).1 = [] ∧
    (processMsg 60 (fun _ _ => false) ⟨1, false, 0⟩ ⟨7, 0, none, none, true⟩ []).2 = true := by
  have h := dripLedgerWriteOnlyOnSuccess 0 (fun _ _ => false) (fun _ _ => false)
    ⟨1, false, 0⟩ ⟨7, 0, none, none, true⟩ [] (by decide)
  have h2 := h.2 (by decide)
  exact ⟨h2.1, h2.2.2 60 (by decide) (by decide)⟩

/-- Claim C2: for a content item with `dayNumber ≥ 1` the sweep sends
only when `daysSinceJoin` equals the item's `dayNumber` and `now` lies
in the half-open five-minute window starting at the trigger time (the
join date's midnight plus `dayNumber` days, at the parsed `send_time`
defaulting to "09:00", plus `additionalMinutes`); in particular, for
join date 2024-01-01T00:00 (second 0), dayNumber 2, send_time "09:00",
additionalMinutes 0, the tick at 2024-01-03T09:06 (second 205560) does
not send. -/
theorem dayNWindowBounded :
    (∀ (now : Int) (ok : Nat → Nat → Bool) (u : UserRow) (msg : StaticMessage)
        (l : Ledger),
      1 ≤ msg.dayNumber →
      (processMsg now ok u msg l).2 = true →
      msg.dayNumber = daysSinceJoin now u.joinDate ∧
      ∃ h m : Int, parseSendTime (effSendTime msg.sendTime) = some (h, m) ∧
        dateMidnight u.joinDate + 86400 * msg.dayNumber + 3600 * h + 60 * m
            + 60 * effAdditionalMinutes msg ≤ now ∧
        now < dateMidnight u.joinDate + 86400 * msg.dayNumber + 3600 * h + 60 * m
            + 60 * effAdditionalMinutes msg + 300) ∧
    (processMsg 205560 (fun _ _ => true) ⟨1, false, 0⟩
      ⟨7, 2, some "09:00", some 0, true⟩ []).2 = false := by
  constructor
  · intro now ok u msg l hday hatt
    obtain ⟨_, hd, _, hwin⟩ := processMsg_attempt hatt
    refine ⟨hd, ?_⟩
    obtain ⟨h, m, hparse, h1, h2⟩ := windowDecision_dayN_send (by omega) hwin
    rw [← hd] at h1 h2
    exact ⟨h, m, hparse, h1, h2⟩
  · decide

theorem dayNWindowBounded_witness :
    (2 : Int) = daysSinceJoin 205320 0 ∧
    ∃ h m : Int, parseSendTime (effSendTime (some "09:00")) = some (h, m) ∧
      dateMidnight 0 + 86400 * 2 + 3600 * h + 60 * m + 60 * 0 ≤ 205320 ∧
      (205320 : Int) < dateMidnight 0 + 86400 * 2 + 3600 * h + 60 * m + 60 * 0 + 300 :=
  dayNWindowBounded.1 205320 (fun _ _ => true) ⟨1, false, 0⟩
    ⟨7, 2, some "09:00", some 0, true⟩ [] (by decide) (by decide)

/-- Claim C8: a day-0 content item (active, not yet delivered) is
eligible on the user's join day exactly when `now` has reached the join
time plus `additionalMinutes`, with no upper bound. -/
theorem dayZeroWindowOpenEnded (now : Int) (ok : Nat → Nat → Bool)
    (u : UserRow) (msg : StaticMessage) (l : Ledger)
    (hday : msg.dayNumber = 0) (hdays : daysSinceJoin now u.joinDate = 0)
    (hact : msg.isActive = true)
    (hns : isStaticMessageSent l u.userId msg.id = false) :
    (processMsg now ok u msg l).2 = true ↔
      u.joinDate + 60 * effAdditionalMinutes msg ≤ now := by
  unfold processMsg windowDecision
  rw [hday, hdays]
  by_cases hle : u.joinDate + 60 * effAdditionalMinutes msg ≤ now
  · simp [hact, hns, hle]
    split <;> simp
  · simp [hact, hns, hle]

theorem dayZeroWindowOpenEnded_witness :
    (processMsg 300 (fun _ _ => true) ⟨1, false, 0⟩ ⟨7, 0, none, some 5, true⟩ []).2
      = true :=
  (dayZeroWindowOpenEnded 300 (fun _ _ => true) ⟨1, false, 0⟩
    ⟨7, 0, none, some 5, true⟩ [] (by decide) (by decide) (by decide)
    (by decide)).mpr (by decide)

/-- Claim C9: a day-N content item whose `send_time` fails to parse as
a valid HH:MM (the ValueError branch of bot.py lines 490-492, e.g.
"25:99") is skipped at every tick: the window evaluates to the caught
`malformed` outcome (logged warning), no send happens, and the ledger
is unchanged — the sweep itself never raises, since the handler
`continue`s. -/
theorem malformedSendTimeSkipped (now : Int) (ok : Nat → Nat → Bool)
    (u : UserRow) (msg : StaticMessage) (l : Ledger)
    (hday : 1 ≤ msg.dayNumber)
    (hmatch : msg.dayNumber = daysSinceJoin now u.joinDate)
    (hbad : parseSendTime (effSendTime msg.sendTime) = none) :
    processMsg now ok u msg l = (l, false) ∧
    windowDecision u.joinDate msg now = .malformed := by
  have hwin : windowDecision u.joinDate msg now = .malformed := by
    unfold windowDecision
    rw [if_neg (by omega), hbad]
  refine ⟨?_, hwin⟩
  unfold processMsg
  split
  · rfl
  · split
    · rfl
    · rw [hwin]

theorem malformedSendTimeSkipped_witness :
    processMsg 86400 (fun _ _ => true) ⟨1, false, 0⟩
        ⟨7, 1, some "25:99", none, true⟩ [] = ([], false) ∧
    windowDecision 0 ⟨7, 1, some "25:99", none, true⟩ 86400 = .malformed :=
  malformedSendTimeSkipped 86400 (fun _ _ => true) ⟨1, false, 0⟩
    ⟨7, 1, some "25:99", none, true⟩ [] (by decide) (by decide) (by decide)

/-! ## Onboarding engine
(bot.py 191-262, 631-654, 710-804; database.py 1223-1322) -/

/-- Row of `user_onboarding_state` (database.py lines 295-304). -/
structure OnbRow where
  currentQuestionId : Option Int
  staticMessagesCompleted : Int
  completedAt : Option Int
deriving DecidableEq, Repr

/-- Row of `user_questions`, restricted to the fields the engine's
control flow reads. -/
structure Question where
  id : Int
  questionType : String
deriving DecidableEq, Repr

/-- database.py 1271-1302 `set_user_onboarding_state`: on an existing
row only the supplied (non-None) fields are updated — in particular
passing `current_question_id=None` leaves the cursor untouched; on a
missing row an INSERT stores `current_question_id or 0` and
`static_messages_completed or 0`. -/
def setUserOnboardingState (st : Option OnbRow) (cq : Option Int)
    (smc : Option Int) : OnbRow :=
  match st with
  | some r =>
      let r1 :=
        match cq with
        | some v => { r with currentQuestionId := some v }
        | none => r
      match smc with
      | some v => { r1 with staticMessagesCompleted := v }
      | none => r1
  | none =>
      { currentQuestionId := some (cq.getD 0),
        staticMessagesCompleted := smc.getD 0,
        completedAt := none }

/-- database.py 1314-1322 `complete_user_onboarding`: an UPDATE that
sets the completion timestamp on the user's row (no row: no-op). -/
def completeUserOnboarding (st : Option OnbRow) (now : Int) : Option OnbRow :=
  st.map (fun r => { r with completedAt := some now })

/-- database.py 1223-1244 `add_user_answer`: upsert keyed on
(user_id, question_id); an existing answer is overwritten in place,
otherwise a fresh row is appended. -/
def addUserAnswer (answers : List (Nat × Int × String)) (uid : Nat)
    (qid : Int) (txt : String) : List (Nat × Int × String) :=
  if answers.any (fun a => decide (a.1 = uid ∧ a.2.1 = qid)) then
    answers.map (fun a => if a.1 = uid ∧ a.2.1 = qid then (uid, qid, txt) else a)
  else answers ++ [(uid, qid, txt)]

/-- database.py 1260-1268 `get_user_answer`: the stored answer text for
a (user, question) pair. -/
def lookupAnswer (answers : List (Nat × Int × String)) (uid : Nat)
    (qid : Int) : Option String :=
  (answers.find? (fun a => decide (a.1 = uid ∧ a.2.1 = qid))).map (fun a => a.2.2)

/-- Observable outcome of one onboarding-related handler: the user's
resulting state row, the answers table, the ids of the questions
dispatched to the user, and whether the completion branch (thank-you
message plus post-completion auto-approval) ran. -/
structure OnbResult where
  state : Option OnbRow
  answers : List (Nat × Int × String)
  dispatched : List Int
  completedBranch : Bool
deriving DecidableEq, Repr

/-- bot.py 748-786 `send_question`: set the onboarding cursor to the
question, then send it (the buttons and free-text presentations both
dispatch exactly that one question). -/
def sendQuestion (st : Option OnbRow) (q : Question) : Option OnbRow × List Int :=
  (some (setUserOnboardingState st (some q.id) none), [q.id])

/-- bot.py 710-745 `send_next_question`: locate the supplied question id
in the ordered active question list (Python `next(generator, -1)`); when
it has a successor, dispatch the successor; otherwise — including when
the id is absent from the list — run the completion branch:
`complete_user_onboarding`, then `set_user_onboarding_state` with
`current_question_id=None` (which leaves an existing row's cursor
untouched), then post-completion auto-approval and the thank-you
message. -/
def sendNextQuestion (activeQs : List Question) (currentQid : Int)
    (st : Option OnbRow) (now : Int) : Option OnbRow × List Int × Bool :=
  match activeQs.findIdx? (fun q => q.id == currentQid) with
  | some i =>
      match activeQs[i + 1]? with
      | some nq => ((sendQuestion st nq).1, [nq.id], false)
      | none =>
          (some (setUserOnboardingState (completeUserOnboarding st now) none none),
           [], true)
  | none =>
      (some (setUserOnboardingState (completeUserOnboarding st now) none none),
       [], true)

/-- bot.py 789-804 `start_user_onboarding`: when active questions
exist, initialize the state row with cursor 0, then send the first
question; with no active questions, do nothing. -/
def startUserOnboarding (activeQs : List Question) (st : Option OnbRow) :
    Option OnbRow × List Int :=
  match activeQs with
  | [] => (st, [])
  | q :: _ =>
      let st1 := some (setUserOnboardingState st (some 0) none)
      sendQuestion st1 q

/-- bot.py 221-237: the onboarding decision of `cmd_start` — onboarding
(re)starts whenever active questions exist and the `auto_approve_mode`
setting equals "after_messages"; no field of the user's existing
onboarding state, in particular not the completion timestamp, is
consulted. -/
def cmdStartOnboarding (activeQs : List Question) (mode : Option String)
    (st : Option OnbRow) : Option OnbRow × List Int :=
  if activeQs ≠ [] ∧ mode = some "after_messages" then
    startUserOnboarding activeQs st
  else (st, [])

/-- bot.py 631-654 `handle_answer_button`: decode question id and
answer value from the callback payload, store the answer
unconditionally (no check against `current_question_id`), then advance
via `send_next_question` relative to the decoded id. -/
def handleAnswerButton (activeQs : List Question) (uid : Nat) (qid : Int)
    (value : String) (st : Option OnbRow)
    (answers : List (Nat × Int × String)) (now : Int) : OnbResult :=
  let ans1 := addUserAnswer answers uid qid value
  let r := sendNextQuestion activeQs qid st now
  ⟨r.1, ans1, r.2.1, r.2.2⟩

/-- bot.py 240-262 `handle_text_message`, onboarding path: a text reply
is treated as an answer only when the user's state row exists, its
`current_question_id` is truthy (non-null and non-zero), and that
question exists with type "text"; the answer is then recorded against
the *current* question and the flow advances from it.  In every other
case the message falls through to menu handling, which touches neither
onboarding state nor answers. -/
def handleTextMessage (allQs activeQs : List Question) (uid : Nat)
    (text : String) (st : Option OnbRow)
    (answers : List (Nat × Int × String)) (now : Int) : OnbResult :=
  match st with
  | some r =>
      match r.currentQuestionId with
      | some qid =>
          if qid ≠ 0 then
            match allQs.find? (fun q => q.id == qid) with
            | some q =>
                if q.questionType = "text" then
                  let ans1 := addUserAnswer answers uid qid text
                  let rr := sendNextQuestion activeQs qid (some r) now
                  ⟨rr.1, ans1, rr.2.1, rr.2.2⟩
                else ⟨st, answers, [], false⟩
            | none => ⟨st, answers, [], false⟩
          else ⟨st, answers, [], false⟩
      | none => ⟨st, answers, [], false⟩
  | none => ⟨st, answers, [], false⟩

/-! ## Helper lemmas about the onboarding engine -/

/-- The routing outcome (dispatched question and completion flag) of
`send_next_question` depends only on the question id and the question
list, never on the user's state row. -/
theorem sendNextQuestion_route_independent (activeQs : List Question)
    (qid : Int) (st1 st2 : Option OnbRow) (now : Int) :
    (sendNextQuestion activeQs qid st1 now).2
      = (sendNextQuestion activeQs qid st2 now).2 := by
  unfold sendNextQuestion
  cases he : activeQs.findIdx? (fun q => q.id == qid) with
  | none => simp only [he]
  | some i =>
      cases hg : activeQs[i + 1]? with
      | none => simp only [he, hg]
      | some nq => simp only [he, hg]

theorem lookupAnswer_replaceAll (uid : Nat) (qid : Int) (v : String) :
    ∀ l : List (Nat × Int × String),
      l.any (fun a => decide (a.1 = uid ∧ a.2.1 = qid)) = true →
      lookupAnswer
        (l.map (fun a => if a.1 = uid ∧ a.2.1 = qid then (uid, qid, v) else a))
        uid qid = some v := by
  intro l
  induction l with
  | nil => intro h; simp at h
  | cons a rest ih =>
      intro h
      by_cases hp : a.1 = uid ∧ a.2.1 = qid
      · simp [lookupAnswer, hp]
      · have hrest : rest.any (fun a => decide (a.1 = uid ∧ a.2.1 = qid)) = true := by
          simp only [List.any_cons, Bool.or_eq_true, decide_eq_true_eq] at h
          rcases h with h | h
          · exact absurd h hp
          · simpa using h
        simpa [lookupAnswer, hp] using ih hrest

theorem lookupAnswer_append_new (uid : Nat) (qid : Int) (v : String) :
    ∀ l : List (Nat × Int × String),
      l.any (fun a => decide (a.1 = uid ∧ a.2.1 = qid)) = false →
      lookupAnswer (l ++ [(uid, qid, v)]) uid qid = some v := by
  intro l
  induction l with
  | nil => intro _; simp [lookupAnswer]
  | cons a rest ih =>
      intro h
      simp only [List.any_cons, Bool.or_eq_false_iff, decide_eq_false_iff_not] at h
      have := ih (by simpa using h.2)
      simpa [lookupAnswer, h.1] using this

/-- The upsert of `add_user_answer` always leaves the supplied text as
the stored answer for the pair. -/
theorem lookupAnswer_addUserAnswer (answers : List (Nat × Int × String))
    (uid : Nat) (qid : Int) (v : String) :
    lookupAnswer (addUserAnswer answers uid qid v) uid qid = some v := by
  unfold addUserAnswer
  split
  · rename_i hany
    exact lookupAnswer_replaceAll uid qid v answers hany
  · rename_i hany
    exact lookupAnswer_append_new uid qid v answers (Bool.eq_false_iff.mpr hany)

/-! ## Claim theorems for the onboarding engine -/

/-- Claim C4, counterexample: a user whose OnboardingState carries a
set completion timestamp (999) issues /start while one active question
is configured and the mode is "after_messages": the first question
(id 5) is dispatched again, contradicting the claimed invariant that a
completed user is never sent another question. -/
theorem completedUserStartCounterexample :
    (⟨some 0, 0, some 999⟩ : OnbRow).completedAt = some 999 ∧
    (cmdStartOnboarding [⟨5, "text"⟩] (some "after_messages")
      (some ⟨some 0, 0, some 999⟩)).2 = [5] :=
  ⟨by decide, by decide⟩

/-- Claim C4, amended: no operation consults the completion timestamp —
the questions dispatched by the /start onboarding path are identical
for any two values of `completedAt`, and whenever active questions
exist under mode "after_messages" the first active question is
dispatched even to a user whose completion timestamp is set
(`onboarding_completed_at` is written by database.py line 1319 but read
nowhere in the repository). -/
theorem startIgnoresCompletionTimestamp :
    ∀ (activeQs : List Question) (mode : Option String) (cq : Option Int)
      (smc : Int) (c1 c2 : Option Int),
      ((cmdStartOnboarding activeQs mode (some ⟨cq, smc, c1⟩)).2
        = (cmdStartOnboarding activeQs mode (some ⟨cq, smc, c2⟩)).2) ∧
      ∀ (q : Question) (rest : List Question) (c : Int),
        (cmdStartOnboarding (q :: rest) (some "after_messages")
          (some ⟨cq, smc, some c⟩)).2 = [q.id] := by
  intro activeQs mode cq smc c1 c2
  constructor
  · unfold cmdStartOnboarding
    split
    · cases activeQs with
      | nil => rfl
      | cons q rest => rfl
    · rfl
  · intro q rest c
    simp [cmdStartOnboarding, startUserOnboarding, sendQuestion]

/-- Claim C5, counterexample: the user's `current_question_id` is 1
(question B) but a button callback carrying question id 2 (A ≠ B)
arrives: the answer for question 2 is stored and the cursor advances to
question 3 — exactly the OnboardingState mutation and Answer record the
claim says must not happen. -/
theorem staleAnswerCounterexample :
    (handleAnswerButton [⟨1, "buttons"⟩, ⟨2, "buttons"⟩, ⟨3, "buttons"⟩]
        10 2 "x" (some ⟨some 1, 0, none⟩) [] 50).answers = [(10, 2, "x")] ∧
    (handleAnswerButton [⟨1, "buttons"⟩, ⟨2, "buttons"⟩, ⟨3, "buttons"⟩]
        10 2 "x" (some ⟨some 1, 0, none⟩) [] 50).state
      = some ⟨some 3, 0, none⟩ :=
  ⟨by decide, by decide⟩

/-- Claim C5, amended: the button-callback handler performs no
staleness check — the stored answer, the dispatched question and the
completion outcome depend only on the question id decoded from the
callback, not on the user's `current_question_id` (two states differing
only in the cursor yield identical answers, dispatch and completion),
and the answer for the decoded question id is always recorded; only the
free-text path is gated on the current question. -/
theorem answerButtonIgnoresCursor :
    ∀ (activeQs : List Question) (uid : Nat) (qid : Int) (v : String)
      (a b : Option Int) (smc : Int) (ca : Option Int)
      (answers : List (Nat × Int × String)) (now : Int),
      ((handleAnswerButton activeQs uid qid v (some ⟨a, smc, ca⟩) answers now).answers
        = (handleAnswerButton activeQs uid qid v (some ⟨b, smc, ca⟩) answers now).answers) ∧
      ((handleAnswerButton activeQs uid qid v (some ⟨a, smc, ca⟩) answers now).dispatched
        = (handleAnswerButton activeQs uid qid v (some ⟨b, smc, ca⟩) answers now).dispatched) ∧
      ((handleAnswerButton activeQs uid qid v (some ⟨a, smc, ca⟩) answers now).completedBranch
        = (handleAnswerButton activeQs uid qid v (some ⟨b, smc, ca⟩) answers now).completedBranch) ∧
      lookupAnswer
        (handleAnswerButton activeQs uid qid v (some ⟨a, smc, ca⟩) answers now).answers
        uid qid = some v := by
  intro activeQs uid qid v a b smc ca answers now
  refine ⟨rfl, ?_, ?_, ?_⟩
  · exact congrArg Prod.fst
      (sendNextQuestion_route_independent activeQs qid
        (some ⟨a, smc, ca⟩) (some ⟨b, smc, ca⟩) now)
  · exact congrArg Prod.snd
      (sendNextQuestion_route_independent activeQs qid
        (some ⟨a, smc, ca⟩) (some ⟨b, smc, ca⟩) now)
  · exact lookupAnswer_addUserAnswer answers uid qid v

/-! ## Join requests
(database.py 743-899; bot.py 305-354, 727-740; admin.py 899-1130) -/

inductive JRStatus where
  | pending
  | approved
  | denied
deriving DecidableEq, Repr

/-- Row of the `join_requests` table (database.py lines 147-160):
UNIQUE(user_id, chat_id), AUTOINCREMENT ids. -/
structure JoinRequest where
  id : Nat
  userId : Nat
  chatId : Int
  username : Option String
  firstName : Option String
  lastName : Option String
  status : JRStatus
  requestDate : Int
  processedDate : Option Int
deriving DecidableEq, Repr

/-- database.py 743-765 `add_join_request`: upsert on the UNIQUE
(user_id, chat_id) pair — on conflict the name fields are refreshed and
the row is reset to pending with a fresh request date and a NULL
processed date; otherwise a new pending row (fresh AUTOINCREMENT id) is
inserted. -/
def addJoinRequest (tbl : List JoinRequest) (uid : Nat) (cid : Int)
    (un fn ln : Option String) (now : Int) (freshId : Nat) : List JoinRequest :=
  if tbl.any (fun r => decide (r.userId = uid ∧ r.chatId = cid)) then
    tbl.map (fun r =>
      if r.userId = uid ∧ r.chatId = cid then
        { r with username := un, firstName := fn, lastName := ln,
                 status := .pending, requestDate := now, processedDate := none }
      else r)
  else tbl ++ [⟨freshId, uid, cid, un, fn, ln, .pending, now, none⟩]

/-- The row effect of `SET status = 'approved',
processed_date = CURRENT_TIMESTAMP`. -/
def approveRow (now : Int) (r : JoinRequest) : JoinRequest :=
  { r with status := .approved, processedDate := some now }

/-- The row effect of `SET status = 'denied',
processed_date = CURRENT_TIMESTAMP`. -/
def denyRow (now : Int) (r : JoinRequest) : JoinRequest :=
  { r with status := .denied, processedDate := some now }

@[simp]
theorem approveRow_id (now : Int) (r : JoinRequest) :
    (approveRow now r).id = r.id := rfl

@[simp]
theorem approveRow_approveRow (now : Int) (r : JoinRequest) :
    approveRow now (approveRow now r) = approveRow now r := rfl

@[simp]
theorem denyRow_id (now : Int) (r : JoinRequest) :
    (denyRow now r).id = r.id := rfl

/-- database.py 842-850 `approve_join_request`: UPDATE by id with no
status guard at the SQL level (every caller in the repository checks
`status == 'pending'` first; see the guarded operations below). -/
def approveJoinRequestDb (tbl : List JoinRequest) (rid : Nat) (now : Int) :
    List JoinRequest :=
  tbl.map (fun r => if r.id = rid then approveRow now r else r)

/-- database.py 852-860 `deny_join_request`: UPDATE by id. -/
def denyJoinRequestDb (tbl : List JoinRequest) (rid : Nat) (now : Int) :
    List JoinRequest :=
  tbl.map (fun r => if r.id = rid then denyRow now r else r)

/-- database.py 862-870 `approve_all_join_requests`: UPDATE guarded by
`WHERE status = 'pending'` in the SQL itself. -/
def approveAllJoinRequestsDb (tbl : List JoinRequest) (now : Int) :
    List JoinRequest :=
  tbl.map (fun r => if r.status = .pending then approveRow now r else r)

/-- database.py 872-880 `deny_all_join_requests`: UPDATE guarded by
`WHERE status = 'pending'`. -/
def denyAllJoinRequestsDb (tbl : List JoinRequest) (now : Int) :
    List JoinRequest :=
  tbl.map (fun r => if r.status = .pending then denyRow now r else r)

/-- database.py 882-888 `get_join_request_by_id`. -/
def getJoinRequestById (tbl : List JoinRequest) (rid : Nat) : Option JoinRequest :=
  tbl.find? (fun r => decide (r.id = rid))

/-- admin.py 919-939, loop body of `/api/invite-requests/approve`:
fetch by id, skip unless the row exists with status pending, call the
Messenger (`ok = false`: the call raised and the `except` skipped the
update), then run the id UPDATE. -/
def adminApproveJoinRequest (tbl : List JoinRequest) (rid : Nat) (ok : Bool)
    (now : Int) : List JoinRequest :=
  match getJoinRequestById tbl rid with
  | none => tbl
  | some r =>
      if r.status = .pending then
        if ok then approveJoinRequestDb tbl rid now else tbl
      else tbl

/-- admin.py 975-995, loop body of `/api/invite-requests/deny`: the
same guard, denying instead. -/
def adminDenyJoinRequest (tbl : List JoinRequest) (rid : Nat) (ok : Bool)
    (now : Int) : List JoinRequest :=
  match getJoinRequestById tbl rid with
  | none => tbl
  | some r =>
      if r.status = .pending then
        if ok then denyJoinRequestDb tbl rid now else tbl
      else tbl

/-- bot.py 328-340 (`on_join_request` under mode 'immediate'): the
Messenger approval runs first (on failure the `except` skips all
bookkeeping); on success the user's pending request row for that chat,
if any, is marked approved. -/
def botImmediateApprove (tbl : List JoinRequest) (uid : Nat) (cid : Int)
    (ok : Bool) (now : Int) : List JoinRequest :=
  if ok then
    match tbl.find? (fun r =>
        decide (r.userId = uid ∧ r.chatId = cid ∧ r.status = JRStatus.pending)) with
    | some r => approveJoinRequestDb tbl r.id now
    | none => tbl
  else tbl

/-- bot.py 727-740 (completion branch of `send_next_question` under
mode 'after_messages'): collect the user's pending request rows, then
approve each one whose Messenger call succeeds, one UPDATE at a time. -/
def botCompletionApprove (tbl : List JoinRequest) (uid : Nat)
    (ok : Nat → Bool) (now : Int) : List JoinRequest :=
  ((tbl.filter (fun r => decide (r.userId = uid ∧ r.status = JRStatus.pending))).map
      (fun r => r.id)).foldl
    (fun t rid => if ok rid then approveJoinRequestDb t rid now else t) tbl

/-- The operations of the running system that touch the
`join_requests` table. -/
inductive JoinRequestOp where
  | inbound (uid : Nat) (cid : Int) (un fn ln : Option String) (freshId : Nat)
  | adminApprove (rid : Nat) (ok : Bool)
  | adminDeny (rid : Nat) (ok : Bool)
  | approveAllPending
  | denyAllPending
  | botImmediate (uid : Nat) (cid : Int) (ok : Bool)
  | botCompletion (uid : Nat) (ok : Nat → Bool)

def applyJoinRequestOp (op : JoinRequestOp) (tbl : List JoinRequest)
    (now : Int) : List JoinRequest :=
  match op with
  | .inbound uid cid un fn ln fid => addJoinRequest tbl uid cid un fn ln now fid
  | .adminApprove rid ok => adminApproveJoinRequest tbl rid ok now
  | .adminDeny rid ok => adminDenyJoinRequest tbl rid ok now
  | .approveAllPending => approveAllJoinRequestsDb tbl now
  | .denyAllPending => denyAllJoinRequestsDb tbl now
  | .botImmediate uid cid ok => botImmediateApprove tbl uid cid ok now
  | .botCompletion uid ok => botCompletionApprove tbl uid ok now

/-- Whether the operation is a fresh inbound join request for the given
(user, chat) pair. -/
def isInboundFor (op : JoinRequestOp) (uid : Nat) (cid : Int) : Prop :=
  ∃ un fn ln fid, op = .inbound uid cid un fn ln fid

/-! ## Helper lemmas about the join-request operations -/

/-- Finding by a predicate invariant under a row transformer commutes
with mapping the transformer. -/
theorem find?_map_of_pred {α : Type} {f : α → α} {p : α → Bool}
    (hp : ∀ x, p (f x) = p x) (l : List α) :
    (l.map f).find? p = (l.find? p).map f := by
  rw [List.find?_map]
  have hpf : (p ∘ f) = p := funext hp
  rw [hpf]

theorem getJoinRequestById_map {f : JoinRequest → JoinRequest}
    (hf : ∀ x, (f x).id = x.id) (tbl : List JoinRequest) (rid : Nat) :
    getJoinRequestById (tbl.map f) rid
      = (getJoinRequestById tbl rid).map f := by
  unfold getJoinRequestById
  exact find?_map_of_pred (fun x => by simp [hf]) tbl

/-- Rows with equal ids are equal in a table whose ids are distinct. -/
theorem joinRequest_id_inj {tbl : List JoinRequest}
    (hnodup : (tbl.map (fun x => x.id)).Nodup)
    {r1 r2 : JoinRequest} (h1 : r1 ∈ tbl) (h2 : r2 ∈ tbl)
    (hid : r1.id = r2.id) : r1 = r2 :=
  List.inj_on_of_nodup_map hnodup h1 h2 hid

theorem getJoinRequestById_mem {tbl : List JoinRequest} {rid : Nat}
    {r : JoinRequest} (h : getJoinRequestById tbl rid = some r) :
    r ∈ tbl ∧ r.id = rid := by
  refine ⟨List.mem_of_find?_eq_some h, ?_⟩
  have := List.find?_some h
  simpa using this

/-- The sequential per-row approvals of the completion branch, seen
through a lookup by id: a row is approved exactly when some processed
id targets it. -/
theorem getJoinRequestById_approveFold (ok : Nat → Bool) (now : Int) (rid : Nat) :
    ∀ (rids : List Nat) (tbl : List JoinRequest),
      getJoinRequestById
        (rids.foldl (fun t x => if ok x then approveJoinRequestDb t x now else t) tbl)
        rid
      = (getJoinRequestById tbl rid).map (fun r =>
          if rids.any (fun x => ok x && decide (r.id = x)) then approveRow now r
          else r) := by
  intro rids
  induction rids with
  | nil =>
      intro tbl
      simp only [List.foldl_nil, List.any_nil, Bool.false_eq_true, if_false]
      cases getJoinRequestById tbl rid <;> rfl
  | cons x rest ih =>
      intro tbl
      rw [List.foldl_cons]
      by_cases hok : ok x = true
      · rw [if_pos hok]
        rw [ih (approveJoinRequestDb tbl x now)]
        unfold approveJoinRequestDb
        rw [getJoinRequestById_map (fun r => by split <;> rfl) tbl rid]
        cases hr : getJoinRequestById tbl rid with
        | none => rfl
        | some r =>
            simp only [Option.map_some']
            congr 1
            by_cases hid : r.id = x
            · simp only [if_pos hid]
              simp [List.any_cons, hok, hid, ite_self]
            · simp only [if_neg hid]
              simp [List.any_cons, hid]
      · rw [if_neg hok]
        rw [ih tbl]
        cases hr : getJoinRequestById tbl rid with
        | none => rfl
        | some r =>
            simp only [Option.map_some']
            congr 1
            have hx : (ok x && decide (r.id = x)) = false := by
              simp [Bool.eq_false_iff.mpr hok]
            simp [List.any_cons, hx]

/-- Membership of an id in the completion branch's worklist forces the
corresponding row of a duplicate-free table to be a pending row of that
user. -/
theorem completionWorklist_pending {tbl : List JoinRequest} {uid : Nat}
    {r : JoinRequest}
    (hnodup : (tbl.map (fun x => x.id)).Nodup) (hr : r ∈ tbl)
    (hin : r.id ∈ (tbl.filter (fun r2 =>
        decide (r2.userId = uid ∧ r2.status = JRStatus.pending))).map
      (fun r2 => r2.id)) :
    r.status = JRStatus.pending := by
  obtain ⟨r2, hr2mem, hr2id⟩ := List.mem_map.mp hin
  have hr2 := List.mem_filter.mp hr2mem
  have heq : r2 = r := joinRequest_id_inj hnodup hr2.1 hr hr2id
  have := of_decide_eq_true hr2.2
  rw [← heq]
  exact this.2

/-! ## Claim theorem for the join-request ledger -/

/-- Claim C6: for every row of a `join_requests` table with distinct
ids (as AUTOINCREMENT guarantees), the only status transitions any
operation of the system performs are pending→approved and
pending→denied; an approved or denied row changes status only when a
fresh inbound join request for the same (user, chat) pair resets it to
pending with a NULL processed timestamp. -/
theorem joinRequestStatusTransitions (op : JoinRequestOp)
    (tbl : List JoinRequest) (now : Int) (rid : Nat) (r rN : JoinRequest)
    (hnodup : (tbl.map (fun x => x.id)).Nodup)
    (hr : getJoinRequestById tbl rid = some r)
    (hrN : getJoinRequestById (applyJoinRequestOp op tbl now) rid = some rN)
    (hch : rN.status ≠ r.status) :
    (r.status = .pending ∧ (rN.status = .approved ∨ rN.status = .denied)) ∨
    (isInboundFor op r.userId r.chatId ∧ rN.status = .pending ∧
      rN.processedDate = none) := by
  have hrmem := (getJoinRequestById_mem hr).1
  have hrid := (getJoinRequestById_mem hr).2
  cases op with
  | inbound uid cid un fn ln fid =>
      simp only [applyJoinRequestOp] at hrN
      unfold addJoinRequest at hrN
      split at hrN
      · rw [getJoinRequestById_map (fun x => by split <;> rfl) tbl rid, hr,
          Option.map_some'] at hrN
        injection hrN with hrN
        by_cases hcond : r.userId = uid ∧ r.chatId = cid
        · rw [if_pos hcond] at hrN
          refine Or.inr ⟨⟨un, fn, ln, fid, ?_⟩, ?_, ?_⟩
          · rw [hcond.1, hcond.2]
          · rw [← hrN]
          · rw [← hrN]
        · rw [if_neg hcond] at hrN
          exact absurd (congrArg JoinRequest.status hrN.symm) hch
      · unfold getJoinRequestById at hrN hr
        rw [List.find?_append, hr] at hrN
        injection hrN with hrN
        exact absurd (congrArg JoinRequest.status hrN.symm) hch
  | adminApprove rid2 ok =>
      simp only [applyJoinRequestOp] at hrN
      unfold adminApproveJoinRequest at hrN
      split at hrN
      · rw [hr] at hrN
        injection hrN with hrN
        exact absurd (congrArg JoinRequest.status hrN.symm) hch
      · rename_i r2 hirq
        split at hrN
        · rename_i hpend2
          split at hrN
          · unfold approveJoinRequestDb at hrN
            rw [getJoinRequestById_map (fun x => by split <;> rfl) tbl rid, hr,
              Option.map_some'] at hrN
            injection hrN with hrN
            by_cases hid : r.id = rid2
            · have hr2 := getJoinRequestById_mem hirq
              have : r = r2 := joinRequest_id_inj hnodup hrmem hr2.1
                (by rw [hid, hr2.2])
              rw [if_pos hid] at hrN
              exact Or.inl ⟨by rw [this]; exact hpend2, Or.inl (by rw [← hrN]; rfl)⟩
            · rw [if_neg hid] at hrN
              exact absurd (congrArg JoinRequest.status hrN.symm) hch
          · rw [hr] at hrN
            injection hrN with hrN
            exact absurd (congrArg JoinRequest.status hrN.symm) hch
        · rw [hr] at hrN
          injection hrN with hrN
          exact absurd (congrArg JoinRequest.status hrN.symm) hch
  | adminDeny rid2 ok =>
      simp only [applyJoinRequestOp] at hrN
      unfold adminDenyJoinRequest at hrN
      split at hrN
      · rw [hr] at hrN
        injection hrN with hrN
        exact absurd (congrArg JoinRequest.status hrN.symm) hch
      · rename_i r2 hirq
        split at hrN
        · rename_i hpend2
          split at hrN
          · unfold denyJoinRequestDb at hrN
            rw [getJoinRequestById_map (fun x => by split <;> rfl) tbl rid, hr,
              Option.map_some'] at hrN
            injection hrN with hrN
            by_cases hid : r.id = rid2
            · have hr2 := getJoinRequestById_mem hirq
              have : r = r2 := joinRequest_id_inj hnodup hrmem hr2.1
                (by rw [hid, hr2.2])
              rw [if_pos hid] at hrN
              exact Or.inl ⟨by rw [this]; exact hpend2, Or.inr (by rw [← hrN]; rfl)⟩
            · rw [if_neg hid] at hrN
              exact absurd (congrArg JoinRequest.status hrN.symm) hch
          · rw [hr] at hrN
            injection hrN with hrN
            exact absurd (congrArg JoinRequest.status hrN.symm) hch
        · rw [hr] at hrN
          injection hrN with hrN
          exact absurd (congrArg JoinRequest.status hrN.symm) hch
  | approveAllPending =>
      simp only [applyJoinRequestOp] at hrN
      unfold approveAllJoinRequestsDb at hrN
      rw [getJoinRequestById_map (fun x => by split <;> rfl) tbl rid, hr,
        Option.map_some'] at hrN
      injection hrN with hrN
      by_cases hst : r.status = JRStatus.pending
      · rw [if_pos hst] at hrN
        exact Or.inl ⟨hst, Or.inl (by rw [← hrN]; rfl)⟩
      · rw [if_neg hst] at hrN
        exact absurd (congrArg JoinRequest.status hrN.symm) hch
  | denyAllPending =>
      simp only [applyJoinRequestOp] at hrN
      unfold denyAllJoinRequestsDb at hrN
      rw [getJoinRequestById_map (fun x => by split <;> rfl) tbl rid, hr,
        Option.map_some'] at hrN
      injection hrN with hrN
      by_cases hst : r.status = JRStatus.pending
      · rw [if_pos hst] at hrN
        exact Or.inl ⟨hst, Or.inr (by rw [← hrN]; rfl)⟩
      · rw [if_neg hst] at hrN
        exact absurd (congrArg JoinRequest.status hrN.symm) hch
  | botImmediate uid cid ok =>
      simp only [applyJoinRequestOp] at hrN
      unfold botImmediateApprove at hrN
      cases ok with
      | false =>
          simp only [Bool.false_eq_true, if_false] at hrN
          rw [hr] at hrN
          injection hrN with hrN
          exact absurd (congrArg JoinRequest.status hrN.symm) hch
      | true =>
          simp only [if_true] at hrN
          split at hrN
          · rename_i r2 hfind
            unfold approveJoinRequestDb at hrN
            rw [getJoinRequestById_map (fun x => by split <;> rfl) tbl rid, hr,
              Option.map_some'] at hrN
            injection hrN with hrN
            by_cases hid : r.id = r2.id
            · have hr2mem := List.mem_of_find?_eq_some hfind
              have : r = r2 := joinRequest_id_inj hnodup hrmem hr2mem hid
              have hpred := List.find?_some hfind
              simp only [decide_eq_true_eq] at hpred
              rw [if_pos hid] at hrN
              exact Or.inl ⟨by rw [this]; exact hpred.2.2,
                Or.inl (by rw [← hrN]; rfl)⟩
            · rw [if_neg hid] at hrN
              exact absurd (congrArg JoinRequest.status hrN.symm) hch
          · rw [hr] at hrN
            injection hrN with hrN
            exact absurd (congrArg JoinRequest.status hrN.symm) hch
  | botCompletion uid ok =>
      simp only [applyJoinRequestOp] at hrN
      unfold botCompletionApprove at hrN
      rw [getJoinRequestById_approveFold, hr, Option.map_some'] at hrN
      injection hrN with hrN
      by_cases hany : ((tbl.filter (fun r2 =>
          decide (r2.userId = uid ∧ r2.status = JRStatus.pending))).map
            (fun r2 => r2.id)).any (fun x => ok x && decide (r.id = x)) = true
      · rw [if_pos hany] at hrN
        obtain ⟨x, hxmem, hx⟩ := List.any_eq_true.mp hany
        have hxid : r.id = x := of_decide_eq_true (Bool.and_elim_right hx)
        rw [← hxid] at hxmem
        have hpend := completionWorklist_pending hnodup hrmem hxmem
        exact Or.inl ⟨hpend, Or.inl (by rw [← hrN]; rfl)⟩
      · rw [if_neg hany] at hrN
        exact absurd (congrArg JoinRequest.status hrN.symm) hch

theorem joinRequestStatusTransitions_witness :
    (JRStatus.pending = JRStatus.pending ∧
      (JRStatus.approved = JRStatus.approved ∨
        JRStatus.approved = JRStatus.denied)) ∨
    (isInboundFor (JoinRequestOp.adminApprove 1 true) 5 100 ∧
      JRStatus.approved = JRStatus.pending ∧
      (some (7 : Int)) = none) :=
  joinRequestStatusTransitions (.adminApprove 1 true)
    [⟨1, 5, 100, none, none, none, .pending, 0, none⟩] 7 1
    ⟨1, 5, 100, none, none, none, .pending, 0, none⟩
    ⟨1, 5, 100, none, none, none, .approved, 0, some 7⟩
    (by decide) (by decide) (by decide) (by decide)

/-! ## Users table and the broadcast sweep
(database.py 309-344; bot.py 357-397) -/

/-- Row of the `users` table (database.py lines 15-26 plus the
`invite_code` migration at lines 239-250). -/
structure UserAccount where
  userId : Nat
  username : Option String
  firstName : Option String
  lastName : Option String
  isBanned : Bool
  joinDate : Int
  lastActivity : Int
  inviteCode : Option String
deriving DecidableEq, Repr

/-- database.py 309-321 `add_user`: INSERT with
`ON CONFLICT(user_id) DO UPDATE` — on conflict only username,
first_name, last_name and last_activity are written; the stored
invite_code, join_date and ban flag keep their values (the upsert's
invite-code argument is used only by the fresh INSERT). -/
def addUser (tbl : List UserAccount) (uid : Nat) (un fn ln ic : Option String)
    (now : Int) : List UserAccount :=
  if tbl.any (fun r => decide (r.userId = uid)) then
    tbl.map (fun r =>
      if r.userId = uid then
        { r with username := un, firstName := fn, lastName := ln,
                 lastActivity := now }
      else r)
  else tbl ++ [⟨uid, un, fn, ln, false, now, now, ic⟩]

/-- Lookup of a user row by platform user id
(`user_id` carries a UNIQUE constraint). -/
def findUser (tbl : List UserAccount) (uid : Nat) : Option UserAccount :=
  tbl.find? (fun r => decide (r.userId = uid))

/-- The `ORDER BY join_date DESC` of `get_users`, as an insertion sort;
only membership in the result matters to the theorems below. -/
def insertByJoinDesc (u : UserAccount) : List UserAccount → List UserAccount
  | [] => [u]
  | v :: vs =>
      if v.joinDate ≤ u.joinDate then u :: v :: vs
      else v :: insertByJoinDesc u vs

def sortByJoinDesc : List UserAccount → List UserAccount
  | [] => []
  | u :: us => insertByJoinDesc u (sortByJoinDesc us)

/-- database.py 323-344 `get_users` with every argument defaulted, as
called by bot.py lines 383 and 442: no search filter, no ban filter,
`ORDER BY join_date DESC LIMIT 100 OFFSET 0` — at most 100 rows come
back. -/
def getUsersDefault (tbl : List UserAccount) : List UserAccount :=
  (sortByJoinDesc tbl).take 100

/-- bot.py lines 383-384 inside `check_scheduled_messages`: the
recipient ids of one due broadcast — the non-banned rows among
`db.get_users()`. -/
def broadcastRecipients (tbl : List UserAccount) : List Nat :=
  ((getUsersDefault tbl).filter (fun u => !u.isBanned)).map (fun u => u.userId)

/-! ## Claim theorems for users and broadcasts -/

/-- Claim C10: when the user id already exists, the upsert of
`add_user` updates exactly username, first name, last name and
last-activity; the stored invite_code and join_date (and ban flag) of
the row are unchanged, even when a new, valid invite code is passed. -/
theorem userUpsertPreservesInviteAndJoin (tbl : List UserAccount) (uid : Nat)
    (un fn ln ic : Option String) (now : Int) (r : UserAccount)
    (hr : findUser tbl uid = some r) :
    findUser (addUser tbl uid un fn ln ic now) uid =
      some { r with username := un, firstName := fn, lastName := ln,
                    lastActivity := now } := by
  have hpred := List.find?_some hr
  simp only [decide_eq_true_eq] at hpred
  have hany : tbl.any (fun r2 => decide (r2.userId = uid)) = true :=
    List.any_eq_true.mpr ⟨r, List.mem_of_find?_eq_some hr, by simp [hpred]⟩
  unfold addUser
  rw [if_pos hany]
  unfold findUser at hr ⊢
  rw [find?_map_of_pred (fun x => by split <;> rfl) tbl, hr, Option.map_some']
  rw [if_pos hpred]

theorem userUpsertPreservesInviteAndJoin_witness :
    findUser (addUser [⟨42, some "old", none, none, false, 5, 5, some "CODE"⟩]
        42 (some "new") (some "N") none (some "NEWCODE") 99) 42 =
      some ⟨42, some "new", some "N", none, false, 5, 99, some "CODE"⟩ :=
  userUpsertPreservesInviteAndJoin
    [⟨42, some "old", none, none, false, 5, 5, some "CODE"⟩]
    42 (some "new") (some "N") none (some "NEWCODE") 99
    ⟨42, some "old", none, none, false, 5, 5, some "CODE"⟩ (by decide)

/-- Claim C7, supporting theorem for the code bug: the broadcast tick
computes its recipients from `db.get_users()` with the default
`LIMIT 100`, so in any users table with distinct ids and more than 100
non-banned rows some non-banned user receives no send attempt — even
though the code's own comment at bot.py line 382 says "Get all active
users" and the spec requires every non-banned user. -/
theorem broadcastMissesUsersBeyondLimit (tbl : List UserAccount)
    (hnodup : (tbl.map (fun u => u.userId)).Nodup)
    (hmany : 100 < (tbl.filter (fun u => !u.isBanned)).length) :
    ∃ u, u ∈ tbl ∧ u.isBanned = false ∧
      u.userId ∉ broadcastRecipients tbl := by
  by_contra hcon
  push_neg at hcon
  have hsub : ((tbl.filter (fun u => !u.isBanned)).map (fun u => u.userId))
      ⊆ broadcastRecipients tbl := by
    intro x hx
    obtain ⟨u2, hu2mem, hu2id⟩ := List.mem_map.mp hx
    have hf := List.mem_filter.mp hu2mem
    have hban : u2.isBanned = false := by simpa using hf.2
    rw [← hu2id]
    exact hcon u2 hf.1 hban
  have hnd : ((tbl.filter (fun u => !u.isBanned)).map (fun u => u.userId)).Nodup :=
    hnodup.sublist ((List.filter_sublist tbl).map (fun u => u.userId))
  have hlen1 := (List.subperm_of_subset hnd hsub).length_le
  have hlen2 : (broadcastRecipients tbl).length ≤ 100 := by
    unfold broadcastRecipients getUsersDefault
    rw [List.length_map]
    exact le_trans (List.length_filter_le _ _) (List.length_take_le _ _)
  have hlen3 : ((tbl.filter (fun u => !u.isBanned)).map
      (fun u => u.userId)).length
      = (tbl.filter (fun u => !u.isBanned)).length := List.length_map _ _
  omega

/-- A users-table row with the given id, used by the concrete
101-user instance below. -/
def mkUser (i : Nat) : UserAccount :=
  ⟨i, none, none, none, false, (i : Int), 0, none⟩

theorem broadcastMissesUsersBeyondLimit_witness :
    ∃ u, u ∈ (List.range 101).map mkUser ∧ u.isBanned = false ∧
      u.userId ∉ broadcastRecipients ((List.range 101).map mkUser) :=
  broadcastMissesUsersBeyondLimit ((List.range 101).map mkUser)
    (by decide) (by decide)

end InviterBot
